import Mathlib

/-!
Shallow embedding of the custom-hooks-with-react-query repository.

The repository is a small Next.js application:
* src/app/actions/users.ts : getUsers, an HTTP GET wrapper around a
  configured base URL (env var API_URL), filtering by a name query
  parameter and checking the HTTP status text;
* src/hooks/useGetUsers.ts : a React Query hook with queryKey
  ['users', params], staleTime 5 minutes and keepPreviousData;
* src/views/Home/components/search.tsx : a search input seeded from the
  URL search parameter whose changes are debounced (300 ms) into a
  router.replace of the rewritten URL;
* src/views/Home/index.tsx : a four-branch rendering of the query result
  (loading / error / list of rows / empty state).

Query strings are modelled as association lists of key/value pairs with
the WHATWG URLSearchParams semantics for get / set / delete / append.
-/

/-- A user record as returned by the remote endpoint
(fields id, name, username, email). -/
structure User where
  id : Nat
  name : String
  username : String
  email : String
deriving DecidableEq, Repr

/-- A URL query string: an ordered list of key/value pairs
(URLSearchParams). -/
abbrev Params := List (String × String)

/-- URLSearchParams.get: the value of the first pair with the given key,
or none when the key is absent. -/
def getParam (ps : Params) (k : String) : Option String :=
  (List.find? (fun p => p.1 == k) ps).map (fun p => p.2)

/-- URLSearchParams.delete: remove every pair with the given key. -/
def deleteParam (ps : Params) (k : String) : Params :=
  List.filter (fun p => !(p.1 == k)) ps

/-- URLSearchParams.set: replace the value of the first pair with the
given key and drop any later pairs with that key; append the pair at the
end when the key is absent. -/
def setParam : Params → String → String → Params
  | [], key, v => [(key, v)]
  | (k0, v0) :: rest, key, v =>
    if k0 = key then (key, v) :: deleteParam rest key
    else (k0, v0) :: setParam rest key v

/-- All values carried by the given key, in list order. -/
def valuesOf (k : String) (ps : Params) : List String :=
  (List.filter (fun p => p.1 == k) ps).map (fun p => p.2)

/-- Navigation actions offered by the Next.js router. -/
inductive NavKind where
  | push
  | replace
deriving DecidableEq, Repr

/-- A page URL: pathname plus query string. -/
structure PageUrl where
  pathname : String
  query : Params
deriving DecidableEq, Repr

/-- One call into the router: which navigation method was invoked and
with which target URL. -/
structure NavCommand where
  kind : NavKind
  url : PageUrl
deriving DecidableEq, Repr

/-- The body of handleSearch in search.tsx: copy the current search
params, set the search parameter to the new text when the text is
non-empty (JS truthiness on strings) and delete it otherwise, then call
router.replace with the pathname and the rewritten query string. -/
def handleSearch (pathname : String) (searchParams : Params) (search : String) : NavCommand :=
  let params :=
    if search ≠ "" then setParam searchParams "search" search
    else deleteParam searchParams "search"
  { kind := NavKind.replace, url := { pathname := pathname, query := params } }

/-- The defaultValue of the search input in search.tsx: the current URL
search parameter, with JS null-or-empty coalescing to the empty string
(the expression search or-else the empty string). -/
def searchInputValue (searchParams : Params) : String :=
  match getParam searchParams "search" with
  | some s => if s ≠ "" then s else ""
  | none => ""

section ParamLemmas

theorem valuesOf_nil (k : String) : valuesOf k ([] : Params) = [] := rfl

theorem valuesOf_cons (k k0 v0 : String) (ps : Params) :
    valuesOf k ((k0, v0) :: ps) =
      if k0 = k then v0 :: valuesOf k ps else valuesOf k ps := by
  by_cases h : k0 = k <;> simp [valuesOf, List.filter_cons, h]

theorem deleteParam_cons (k k0 v0 : String) (ps : Params) :
    deleteParam ((k0, v0) :: ps) k =
      if k0 = k then deleteParam ps k else (k0, v0) :: deleteParam ps k := by
  by_cases h : k0 = k <;> simp [deleteParam, List.filter_cons, h]

theorem valuesOf_deleteParam_self (s : String) (ps : Params) :
    valuesOf s (deleteParam ps s) = [] := by
  induction ps with
  | nil => rfl
  | cons p rest ih =>
    rcases p with ⟨k0, v0⟩
    rw [deleteParam_cons]
    by_cases h : k0 = s
    · simpa [h] using ih
    · simpa [h, valuesOf_cons] using ih

theorem valuesOf_deleteParam_ne (k s : String) (ps : Params) (h : k ≠ s) :
    valuesOf k (deleteParam ps s) = valuesOf k ps := by
  induction ps with
  | nil => rfl
  | cons p rest ih =>
    rcases p with ⟨k0, v0⟩
    rw [deleteParam_cons]
    by_cases h1 : k0 = s
    · have h2 : k0 ≠ k := fun hk => h (hk ▸ h1)
      simpa [h1, valuesOf_cons, h2, Ne.symm h] using ih
    · by_cases h2 : k0 = k <;> simp [h1, h2, h, valuesOf_cons, ih]

theorem valuesOf_setParam_self (s v : String) (ps : Params) :
    valuesOf s (setParam ps s v) = [v] := by
  induction ps with
  | nil => simp [setParam, valuesOf_cons, valuesOf_nil]
  | cons p rest ih =>
    rcases p with ⟨k0, v0⟩
    by_cases h : k0 = s
    · simp [setParam, h, valuesOf_cons, valuesOf_deleteParam_self]
    · simpa [setParam, h, valuesOf_cons] using ih

theorem valuesOf_setParam_ne (k s v : String) (ps : Params) (h : k ≠ s) :
    valuesOf k (setParam ps s v) = valuesOf k ps := by
  induction ps with
  | nil => simp [setParam, valuesOf_cons, valuesOf_nil, Ne.symm h]
  | cons p rest ih =>
    rcases p with ⟨k0, v0⟩
    by_cases h1 : k0 = s
    · have h2 : k0 ≠ k := fun hk => h (hk ▸ h1)
      simp [setParam, h1, valuesOf_cons, Ne.symm h, h2,
        valuesOf_deleteParam_ne k s rest h]
    · by_cases h2 : k0 = k <;> simp [setParam, h1, h2, h, Ne.symm h, valuesOf_cons, ih]

end ParamLemmas

/-- C3: for every search text, the debounced write transition sets the
URL search query parameter to that text when the text is non-empty,
removes the search parameter entirely when the text is empty, and issues
a replace (not a push) of the current history entry with the page
pathname. -/
theorem handleSearch_write_transition (pathname : String) (sp : Params) (text : String) :
    (handleSearch pathname sp text).kind = NavKind.replace ∧
    (handleSearch pathname sp text).url.pathname = pathname ∧
    (text ≠ "" → valuesOf "search" (handleSearch pathname sp text).url.query = [text]) ∧
    (text = "" → valuesOf "search" (handleSearch pathname sp text).url.query = []) := by
  refine ⟨rfl, rfl, ?_, ?_⟩
  · intro h
    show valuesOf "search"
        (if text ≠ "" then setParam sp "search" text else deleteParam sp "search") = [text]
    rw [if_pos h]
    exact valuesOf_setParam_self "search" text sp
  · intro h
    show valuesOf "search"
        (if text ≠ "" then setParam sp "search" text else deleteParam sp "search") = []
    rw [if_neg (by simp [h])]
    exact valuesOf_deleteParam_self "search" sp

/-- Witness for handleSearch_write_transition at concrete inputs. -/
theorem handleSearch_write_transition_witness :
    valuesOf "search" (handleSearch "/" [("a", "1")] "bob").url.query = ["bob"] ∧
    valuesOf "search" (handleSearch "/" [("search", "x"), ("a", "1")] "").url.query = [] :=
  ⟨(handleSearch_write_transition "/" [("a", "1")] "bob").2.2.1 (by decide),
   (handleSearch_write_transition "/" [("search", "x"), ("a", "1")] "").2.2.2 rfl⟩

/-- C10: the debounced write modifies only the search query parameter:
for every other key, the values it carries in the query string are
unchanged by the write, so no other parameter is added, removed or
altered. -/
theorem handleSearch_frame (pathname : String) (sp : Params) (text k : String)
    (h : k ≠ "search") :
    valuesOf k (handleSearch pathname sp text).url.query = valuesOf k sp := by
  show valuesOf k
      (if text ≠ "" then setParam sp "search" text else deleteParam sp "search") = valuesOf k sp
  by_cases ht : text = ""
  · rw [if_neg (by simp [ht])]
    exact valuesOf_deleteParam_ne k "search" sp h
  · rw [if_pos ht]
    exact valuesOf_setParam_ne k "search" text sp h

/-- Witness for handleSearch_frame at a concrete input. -/
theorem handleSearch_frame_witness :
    valuesOf "page" (handleSearch "/" [("page", "2"), ("search", "x")] "bob").url.query
      = valuesOf "page" [("page", "2"), ("search", "x")] :=
  handleSearch_frame "/" [("page", "2"), ("search", "x")] "bob" "page" (by decide)

/-- C7: on render the displayed input value is the current URL search
parameter (its first value), and the empty string when it is absent. -/
theorem search_input_reads_url (sp : Params) :
    searchInputValue sp = (getParam sp "search").getD "" ∧
    (getParam sp "search" = none → searchInputValue sp = "") := by
  constructor
  · cases h : getParam sp "search" with
    | none => simp [searchInputValue, h]
    | some s =>
      by_cases hs : s = "" <;> simp [searchInputValue, h, hs]
  · intro h
    simp [searchInputValue, h]

/-- Witness for search_input_reads_url at concrete inputs. -/
theorem search_input_reads_url_witness :
    searchInputValue [("a", "1")] = (getParam [("a", "1")] "search").getD "" ∧
    searchInputValue [("a", "1")] = "" :=
  ⟨(search_input_reads_url [("a", "1")]).1,
   (search_input_reads_url [("a", "1")]).2 rfl⟩

/-- The debounce delay of the search control, in milliseconds. -/
def debounceDelay : Nat := 300

/-- Modelled from the spec: the trailing-edge debounce semantics of the
use-debounce library (not part of this repository's sources). Scheduling
a callback after the delay cancels any unfired prior schedule for the
same timer. Events are pairs of a timestamp and the keystroke value, in
time order; the state is the pending schedule (fire time and value). A
pending schedule whose fire time has been reached by the next event
fires first and emits its value; at the end of the event sequence the
remaining pending schedule fires. The result is the list of values
handed to the debounced callback, in order. -/
def runDebounce : List (Nat × String) → Option (Nat × String) → List String
  | [], pending =>
    match pending with
    | none => []
    | some (_, v) => [v]
  | (t, v) :: rest, pending =>
    match pending with
    | none => runDebounce rest (some (t + debounceDelay, v))
    | some (ft, pv) =>
      if ft ≤ t then pv :: runDebounce rest (some (t + debounceDelay, v))
      else runDebounce rest (some (t + debounceDelay, v))

/-- A keystroke sequence is rapid after time t when each event happens
strictly after the previous one and strictly less than the debounce
delay after it. -/
def rapidFrom (t : Nat) : List (Nat × String) → Bool
  | [] => true
  | (u, _) :: rest => (decide (t < u) && decide (u < t + debounceDelay)) && rapidFrom u rest

/-- The value of the last keystroke of the sequence, with a default for
the empty tail. -/
def lastVal (v : String) : List (Nat × String) → String
  | [] => v
  | (_, w) :: rest => lastVal w rest

theorem runDebounce_rapid (v : String) (t : Nat) (rest : List (Nat × String))
    (h : rapidFrom t rest = true) :
    runDebounce rest (some (t + debounceDelay, v)) = [lastVal v rest] := by
  induction rest generalizing t v with
  | nil => rfl
  | cons e rest ih =>
    rcases e with ⟨u, w⟩
    simp only [rapidFrom, Bool.and_eq_true, decide_eq_true_eq] at h
    obtain ⟨⟨_, hu⟩, hrest⟩ := h
    have hnot : ¬ t + debounceDelay ≤ u := Nat.not_le_of_lt hu
    simp only [runDebounce, if_neg hnot, lastVal]
    exact ih w u hrest

/-- C2: for every rapid keystroke sequence (consecutive keystrokes less
than 300 ms apart), the debounced callback runs exactly once after the
sequence ends, and the single URL write it performs is the one for the
final keystroke value; no intermediate value is ever written. -/
theorem debounce_single_final_write (pathname : String) (sp : Params)
    (t0 : Nat) (v0 : String) (rest : List (Nat × String))
    (h : rapidFrom t0 rest = true) :
    (runDebounce ((t0, v0) :: rest) none).map (handleSearch pathname sp)
      = [handleSearch pathname sp (lastVal v0 rest)] ∧
    (runDebounce ((t0, v0) :: rest) none).length = 1 := by
  have hrun : runDebounce ((t0, v0) :: rest) none = [lastVal v0 rest] := by
    show runDebounce rest (some (t0 + debounceDelay, v0)) = [lastVal v0 rest]
    exact runDebounce_rapid v0 t0 rest h
  rw [hrun]
  exact ⟨rfl, rfl⟩

/-- Witness for debounce_single_final_write: three keystrokes at 0, 100
and 250 ms collapse into one write of the final value. -/
theorem debounce_single_final_write_witness :
    (runDebounce [(0, "a"), (100, "ab"), (250, "abc")] none).map (handleSearch "/" [])
      = [handleSearch "/" [] "abc"] ∧
    (runDebounce [(0, "a"), (100, "ab"), (250, "abc")] none).length = 1 :=
  debounce_single_final_write "/" [] 0 "a" [(100, "ab"), (250, "abc")] (by decide)

/-- The optional filter parameters of getUsers
(type GetUsersParams in users.ts). -/
structure GetUsersParams where
  name : String
deriving DecidableEq, Repr

/-- A URL as built by the URL constructor: the configured base plus the
search params appended to it. -/
structure Url where
  base : String
  searchParams : Params
deriving DecidableEq, Repr

/-- URL.searchParams.append: add a key/value pair at the end. -/
def appendParam (u : Url) (k v : String) : Url :=
  { u with searchParams := u.searchParams ++ [(k, v)] }

/-- An HTTP request as issued by fetch: target URL, method and headers. -/
structure Request where
  url : Url
  method : String
  headers : Params
deriving DecidableEq, Repr

/-- An HTTP response as observed by getUsers: the status text and the
value produced by parsing the body as JSON (the code performs no
validation of that value beyond the JSON parse). -/
structure Response where
  statusText : String
  jsonBody : List User

/-- The failures of getUsers: the TypeError thrown by the URL
constructor when the API_URL environment variable is absent, and the
error thrown on a non-OK status text, carrying the status text as its
cause. -/
inductive GetUsersError where
  | invalidUrl
  | fetchError (cause : String)
deriving DecidableEq, Repr

/-- The URL getUsers builds: the configured base, with the name search
param appended when the optional params carry a non-empty name (JS
truthiness of params?.name). -/
def usersRequestUrl (base : String) (params : Option GetUsersParams) : Url :=
  let url : Url := { base := base, searchParams := [] }
  match params with
  | some p => if p.name ≠ "" then appendParam url "name" p.name else url
  | none => url

/-- The fetch request getUsers issues: a GET of the built URL with a
JSON content-type header. -/
def usersRequest (base : String) (params : Option GetUsersParams) : Request :=
  { url := usersRequestUrl base params,
    method := "GET",
    headers := [("Content-Type", "application/json")] }

/-- The body of getUsers in users.ts. The API_URL environment variable
is an optional string; when it is absent the URL constructor throws
before any fetch happens. Otherwise one fetch of the built request is
made; a response whose status text differs from OK makes getUsers throw
an error with the status text as cause, and an OK response's parsed JSON
body is returned as the user list. The network is an oracle from
requests to responses, and the second component collects every request
given to fetch, in order. -/
def getUsers (apiUrl : Option String) (fetch : Request → Response)
    (params : Option GetUsersParams) :
    Except GetUsersError (List User) × List Request :=
  match apiUrl with
  | none => (Except.error GetUsersError.invalidUrl, [])
  | some base =>
    let req := usersRequest base params
    let response := fetch req
    if response.statusText ≠ "OK" then
      (Except.error (GetUsersError.fetchError response.statusText), [req])
    else
      (Except.ok response.jsonBody, [req])

/-- C1: with a configured base URL, getUsers makes exactly one fetch
attempt, returns the JSON-parsed body when the status text is OK, and
otherwise throws an error whose cause is exactly the status text. -/
theorem getUsers_status_handling (base : String) (fetch : Request → Response)
    (params : Option GetUsersParams) :
    (getUsers (some base) fetch params).2 = [usersRequest base params] ∧
    (getUsers (some base) fetch params).1 =
      (if (fetch (usersRequest base params)).statusText = "OK"
       then Except.ok (fetch (usersRequest base params)).jsonBody
       else Except.error
         (GetUsersError.fetchError (fetch (usersRequest base params)).statusText)) := by
  by_cases h : (fetch (usersRequest base params)).statusText = "OK" <;>
    simp [getUsers, h]

/-- C4: the request getUsers issues targets the configured base URL,
carries the name query parameter exactly when the filter text is
non-empty (and with that text as its only value), and omits it when the
filter text is empty or the params are absent. -/
theorem getUsers_request_shape (base : String) (fetch : Request → Response)
    (params : Option GetUsersParams) :
    (getUsers (some base) fetch params).2 = [usersRequest base params] ∧
    (usersRequest base params).url.base = base ∧
    valuesOf "name" (usersRequest base params).url.searchParams =
      Option.elim params [] (fun p => if p.name = "" then [] else [p.name]) ∧
    (usersRequest base params).method = "GET" ∧
    (usersRequest base params).headers = [("Content-Type", "application/json")] := by
  refine ⟨?_, ?_, ?_, rfl, rfl⟩
  · by_cases h : (fetch (usersRequest base params)).statusText = "OK" <;>
      simp [getUsers, h]
  · cases params with
    | none => rfl
    | some p =>
      by_cases h : p.name = "" <;>
        simp [usersRequest, usersRequestUrl, appendParam, h]
  · cases params with
    | none => rfl
    | some p =>
      by_cases h : p.name = "" <;>
        simp [usersRequest, usersRequestUrl, appendParam, h, valuesOf]

/-- C8: when the API_URL environment variable is absent, getUsers fails
at URL construction with the thrown TypeError, before any fetch: the
request trace is empty and no data is returned. -/
theorem getUsers_missing_env (fetch : Request → Response)
    (params : Option GetUsersParams) :
    getUsers none fetch params = (Except.error GetUsersError.invalidUrl, []) := rfl

/-- A rendered list row: the key attribute (the user id) and the
displayed text (the user display name). -/
structure Row where
  key : Nat
  text : String
deriving DecidableEq, Repr

/-- The four indicators the Home view can render. -/
inductive View where
  | loading
  | errorBox
  | userList (rows : List Row)
  | emptyState
deriving DecidableEq, Repr

/-- The tri-state result exposed by the query hook to the view:
isLoading, isError, and the data, which is absent until a first fetch
resolves. -/
structure QueryResult where
  isLoading : Bool
  isError : Bool
  data : Option (List User)

/-- One rendered row of the user list: keyed by the record id, showing
the display name. -/
def userRow (u : User) : Row :=
  { key := u.id, text := u.name }

/-- The conditional rendering chain of the Home view: isLoading first,
then isError, then the JS-truthy test users?.length, which is falsy both
when the data is absent and when the list length is zero. -/
def render (r : QueryResult) : View :=
  if r.isLoading then View.loading
  else if r.isError then View.errorBox
  else
    match r.data with
    | some users =>
      if users.length ≠ 0 then View.userList (users.map userRow)
      else View.emptyState
    | none => View.emptyState

/-- The rows shown by a view: those of the user list, none elsewhere. -/
def rowsOf : View → List Row
  | View.userList rows => rows
  | _ => []

/-- Whether the view is the loading indicator. -/
def showsLoading : View → Bool
  | View.loading => true
  | _ => false

/-- Whether the view is the error indicator. -/
def showsError : View → Bool
  | View.errorBox => true
  | _ => false

/-- Whether the view is the populated user list. -/
def showsList : View → Bool
  | View.userList _ => true
  | _ => false

/-- Whether the view is the empty-state indicator. -/
def showsEmpty : View → Bool
  | View.emptyState => true
  | _ => false

/-- C5: the four indicators are mutually exclusive and exhaustive
(exactly one is rendered for every tri-state result), loading takes
precedence over error, and error takes precedence over both data-based
branches. -/
theorem render_exactly_one_branch (r : QueryResult) :
    (showsLoading (render r)).toNat + (showsError (render r)).toNat +
      (showsList (render r)).toNat + (showsEmpty (render r)).toNat = 1 ∧
    (r.isLoading = true → render r = View.loading) ∧
    (r.isLoading = false → r.isError = true → render r = View.errorBox) ∧
    (r.isLoading = false → r.isError = false →
      showsList (render r) = true ∨ showsEmpty (render r) = true) := by
  refine ⟨?_, ?_, ?_, ?_⟩
  · rcases r with ⟨l, e, d⟩
    cases l
    · cases e
      · cases d with
        | none => rfl
        | some users =>
          by_cases h : users.length = 0 <;>
            simp [render, h, showsLoading, showsError, showsList, showsEmpty]
      · rfl
    · rfl
  · intro h
    simp [render, h]
  · intro hl he
    simp [render, hl, he]
  · intro hl he
    rcases hd : r.data with _ | users
    · simp [render, hl, he, hd, showsEmpty]
    · by_cases h : users.length = 0 <;>
        simp [render, hl, he, hd, h, showsList, showsEmpty]

/-- Witness for render_exactly_one_branch at concrete results. -/
theorem render_exactly_one_branch_witness :
    render { isLoading := true, isError := true, data := none } = View.loading ∧
    render { isLoading := false, isError := true, data := none } = View.errorBox ∧
    (showsList (render { isLoading := false, isError := false, data := none }) = true ∨
      showsEmpty (render { isLoading := false, isError := false, data := none }) = true) :=
  ⟨(render_exactly_one_branch { isLoading := true, isError := true, data := none }).2.1 rfl,
   (render_exactly_one_branch { isLoading := false, isError := true, data := none }).2.2.1 rfl rfl,
   (render_exactly_one_branch { isLoading := false, isError := false, data := none }).2.2.2 rfl rfl⟩

/-- C6: a resolved list of N user records renders exactly N rows, in
response order, the i-th row keyed by the i-th record's id and showing
its display name. -/
theorem render_rows (users : List User) :
    rowsOf (render { isLoading := false, isError := false, data := some users })
      = users.map userRow ∧
    (rowsOf (render { isLoading := false, isError := false, data := some users })).length
      = users.length ∧
    ∀ i : Nat,
      (rowsOf (render { isLoading := false, isError := false, data := some users }))[i]?
        = (users[i]?).map userRow := by
  have hrows :
      rowsOf (render { isLoading := false, isError := false, data := some users })
        = users.map userRow := by
    by_cases h : users.length = 0
    · have : users = [] := List.length_eq_zero.mp h
      subst this
      rfl
    · simp [render, h, rowsOf]
  refine ⟨hrows, ?_, ?_⟩
  · rw [hrows, List.length_map]
  · intro i
    rw [hrows, List.getElem?_map]

/-- One component of a React Query cache key: the literal string part
and the params part of the key ['users', params]. -/
inductive QueryKeyPart where
  | str (s : String)
  | filter (p : GetUsersParams)
deriving DecidableEq, Repr

/-- The options object passed to useQuery by useGetUsers: the cache key,
the staleTime in milliseconds, and whether placeholderData is
keepPreviousData. -/
structure UseQueryOptions where
  queryKey : List QueryKeyPart
  staleTime : Nat
  keepsPreviousData : Bool
deriving DecidableEq, Repr

/-- The useGetUsers hook in useGetUsers.ts: a query keyed by
['users', params] with staleTime 1000 * 60 * 5 and
placeholderData keepPreviousData. -/
def useGetUsers (params : GetUsersParams) : UseQueryOptions :=
  { queryKey := [QueryKeyPart.str "users", QueryKeyPart.filter params],
    staleTime := 1000 * 60 * 5,
    keepsPreviousData := true }

/-- Modelled from the spec: the freshness rule of the query-caching
library (not part of this repository's sources). A resolved cache entry
is fresh for the staleTime window after it resolved, and a request whose
key hits a fresh entry reuses the cached result without a new network
call. -/
def cacheReuses (staleTime resolvedAt now : Nat) : Bool :=
  decide (now - resolvedAt ≤ staleTime)

/-- C9: the hook sets the freshness window to exactly 5 minutes (300000
milliseconds); equal filter parameters give equal cache keys, and any
request within the window reuses the cached result without a new network
call. -/
theorem useGetUsers_staleTime (p : GetUsersParams) :
    (useGetUsers p).staleTime = 300000 ∧
    (∀ q : GetUsersParams, p.name = q.name →
      (useGetUsers p).queryKey = (useGetUsers q).queryKey) ∧
    (∀ resolvedAt now : Nat, now - resolvedAt ≤ (useGetUsers p).staleTime →
      cacheReuses (useGetUsers p).staleTime resolvedAt now = true) := by
  refine ⟨rfl, ?_, ?_⟩
  · intro q hq
    rcases p with ⟨pn⟩
    rcases q with ⟨qn⟩
    simp only at hq
    simp [useGetUsers, hq]
  · intro resolvedAt now h
    simpa [cacheReuses] using h

/-- Witness for useGetUsers_staleTime at concrete inputs. -/
theorem useGetUsers_staleTime_witness :
    (useGetUsers { name := "Leanne" }).staleTime = 300000 ∧
    (useGetUsers { name := "Leanne" }).queryKey
      = (useGetUsers { name := "Leanne" }).queryKey ∧
    cacheReuses (useGetUsers { name := "Leanne" }).staleTime 1000 200000 = true :=
  ⟨(useGetUsers_staleTime { name := "Leanne" }).1,
   (useGetUsers_staleTime { name := "Leanne" }).2.1 { name := "Leanne" } rfl,
   (useGetUsers_staleTime { name := "Leanne" }).2.2 1000 200000 (by decide)⟩
